import Mathlib

/-!
# FastAPI-Keepa batch pipeline: verification of the specification claims

Shallow embedding of the batch job pipeline of the FastAPI-Keepa backend
(`backend/app/services/batch_processor.py`, `keepa_client.py`,
`price_analyzer.py`, `csv_generator.py`, `report_service.py`,
`job_status_service.py`, `api/jobs.py`, `api/batches.py`).

Conventions used throughout:
* Python `Decimal` / numeric arithmetic is modelled by `Rat` (exact rationals);
  JSON integers (Keepa cent prices, minute timestamps) by `Int`/`Nat`.
* Database rows are plain structures; a persistence call is modelled either as
  the row value written or as an element of an explicit write trace.
* `None`-able Python values are `Option`; a raised exception is the `.error`
  case of an `Except`.
* Status strings ("pending", "processing", "completed", "failed", "cancelled")
  are kept as `String` literals exactly as in the source.
-/

/-! ## Job status reconciliation (`JobStatusService.update_job_status_if_all_batches_done`) -/

/-- The mutable fields of a `batch_jobs` row touched by the reconciliation
procedure: `status`, `completed_batches` and `completed_at` (the wall-clock
timestamp is abstracted to a `Nat` token). -/
structure JobState where
  status : String
  completed_batches : Nat
  completed_at : Option Nat
deriving DecidableEq, Repr

/-- Embedding of `JobStatusService.update_job_status_if_all_batches_done`
(`job_status_service.py` lines 13-56).  `batchStatuses` is the list of
`status` fields of the job's `upc_batches` rows, `now` the value written to
`completed_at`.  The source: if the batch list is empty, return; if every
batch status is outside `["pending", "processing"]` and the job is still
`"processing"`, write status `"completed"`, `completed_batches` = number of
batches in `["completed", "cancelled"]`, and `completed_at = now`; otherwise
leave the row untouched. -/
def update_job_status_if_all_batches_done (now : Nat) (batchStatuses : List String)
    (job : JobState) : JobState :=
  if batchStatuses.isEmpty then job
  else if batchStatuses.all (fun s => !(s == "pending" || s == "processing")) then
    if job.status == "processing" then
      { status := "completed",
        completed_batches := (batchStatuses.filter (fun s => s == "completed" || s == "cancelled")).length,
        completed_at := some now }
    else job
  else job

/-- C5: reconciliation is idempotent, only fires on a still-`"processing"` job,
and in the all-terminal case writes `completed` together with the count of
batches in `{completed, cancelled}` and a `completed_at` timestamp.  A second
invocation (at any later time `now'`) changes nothing. -/
theorem C5_reconciliation_idempotent (now now' : Nat) (bs : List String) (job : JobState) :
    (update_job_status_if_all_batches_done now' bs
        (update_job_status_if_all_batches_done now bs job) =
      update_job_status_if_all_batches_done now bs job) ∧
    (job.status ≠ "processing" → update_job_status_if_all_batches_done now bs job = job) ∧
    (bs ≠ [] → bs.all (fun s => !(s == "pending" || s == "processing")) = true →
      job.status = "processing" →
      update_job_status_if_all_batches_done now bs job =
        ⟨"completed", (bs.filter (fun s => s == "completed" || s == "cancelled")).length, some now⟩) := by
  refine ⟨?_, ?_, ?_⟩
  · by_cases hemp : bs.isEmpty = true
    · simp only [update_job_status_if_all_batches_done, hemp, if_true]
    · have hemp' : bs.isEmpty = false := by simpa using hemp
      by_cases hall : (bs.all fun s => !(s == "pending" || s == "processing")) = true
      · by_cases hproc : (job.status == "processing") = true
        · simp only [update_job_status_if_all_batches_done, hemp', hall, hproc,
            Bool.false_eq_true, if_false, if_true]
          simp
        · have hproc' : (job.status == "processing") = false := by simpa using hproc
          simp only [update_job_status_if_all_batches_done, hemp', hall, hproc',
            Bool.false_eq_true, if_false, if_true]
      · have hall' : (bs.all fun s => !(s == "pending" || s == "processing")) = false := by
          simpa using hall
        simp only [update_job_status_if_all_batches_done, hemp', hall',
          Bool.false_eq_true, if_false]
  · intro hne
    have hproc' : (job.status == "processing") = false := by simpa using hne
    simp only [update_job_status_if_all_batches_done, hproc', Bool.false_eq_true, if_false]
    split
    · rfl
    · split <;> rfl
  · intro hbs hall hproc
    have hemp' : bs.isEmpty = false := by
      cases bs with
      | nil => exact absurd rfl hbs
      | cons a l => rfl
    have hproc' : (job.status == "processing") = true := by simpa using hproc
    simp only [update_job_status_if_all_batches_done, hemp', hall, hproc',
      Bool.false_eq_true, if_false, if_true]

/-- Witness for C5 at a concrete terminal batch set. -/
theorem C5_reconciliation_idempotent_witness :
    (update_job_status_if_all_batches_done 9 ["completed", "cancelled", "failed"]
        (update_job_status_if_all_batches_done 5 ["completed", "cancelled", "failed"]
          ⟨"processing", 0, none⟩) =
      update_job_status_if_all_batches_done 5 ["completed", "cancelled", "failed"]
        ⟨"processing", 0, none⟩) ∧
    (update_job_status_if_all_batches_done 5 ["completed", "cancelled", "failed"]
        ⟨"processing", 0, none⟩ =
      ⟨"completed", 2, some 5⟩) := by
  refine ⟨(C5_reconciliation_idempotent 5 9 _ _).1, ?_⟩
  have h := (C5_reconciliation_idempotent 5 9 ["completed", "cancelled", "failed"]
      ⟨"processing", 0, none⟩).2.2 (by decide) (by decide) rfl
  rw [h]
  decide

/-! ## Cooperative cancellation in `BatchProcessor.process_batch`

`process_batch` (`batch_processor.py` lines 103-241) sets the batch status to
`"processing"`, then loops over the `m` items.  Before each item it re-reads
the batch status and, if it is `"cancelled"`, persists the partial
`processed_count` and returns (the row keeps the `"cancelled"` status written
by the out-of-band `stop_batch` endpoint, `api/batches.py` lines 94-130).
Every item attempt (success, "no data" or caught exception) increments
`processed_count`.  After the loop it unconditionally writes
`{status: "completed", processed_count, completed_at}`.

The interleaving with the out-of-band cancel write is modelled by an event
index: the run consists of the events `poll₁, item₁, poll₂, item₂, …,
pollₘ, itemₘ, final-write` and the cancel write lands after `τ` of those
events have happened (`stop_batch` only succeeds while the row is
`"pending"`/`"processing"`, i.e. for `τ ≤ 2m`; a later cancel is rejected
with a 400).  `pollᵢ` (which happens after `2(i-1)` events) reads
`"cancelled"` exactly when `τ ≤ 2(i-1)`. -/

/-- The terminal `upc_batches` row fields decided by `process_batch`:
persisted `status` and `processed_count`. -/
structure BatchFinal where
  status : String
  processed_count : Nat
deriving DecidableEq, Repr

/-- The item loop of `process_batch`: `i` items have been attempted so far
(`processed_count = i`), `r` items remain.  The poll before the next item
reads `"cancelled"` iff `τ ≤ 2*i`; in that case the code persists the partial
count and stops, leaving the cancel write's `"cancelled"` status in place.
When no items remain the source performs the unconditional terminal write
`{status: "completed", processed_count}` — it overwrites any cancel that
landed after the last poll. -/
def process_batch_loop (τ : Nat) : Nat → Nat → BatchFinal
  | i, 0 => ⟨"completed", i⟩
  | i, r + 1 =>
    if τ ≤ 2 * i then ⟨"cancelled", i⟩
    else process_batch_loop τ (i + 1) r

/-- `process_batch` on a batch of `m` items with the out-of-band cancel write
landing after `τ` events (see the section comment). -/
def process_batch_cancelled (m τ : Nat) : BatchFinal :=
  process_batch_loop τ 0 m

/-- If the cancel write lands no earlier than the last poll
(`τ + 1 ≥ 2(i+r)`), no poll observes it and the loop runs to the terminal
`"completed"` write. -/
theorem process_batch_loop_late (τ : Nat) :
    ∀ r i, 2 * (i + r) ≤ τ + 1 → process_batch_loop τ i r = ⟨"completed", i + r⟩ := by
  intro r
  induction r with
  | zero => intro i _; simp [process_batch_loop]
  | succ n ih =>
    intro i h
    have hpoll : ¬ τ ≤ 2 * i := by omega
    have := ih (i + 1) (by omega)
    simp only [process_batch_loop, if_neg hpoll]
    rw [this]
    congr 1
    omega

/-- If the cancel write lands strictly before the poll of some remaining item,
the first poll that observes it is poll number `(τ+1)/2 + 1`, and the loop
stops there with `processed_count = (τ+1)/2` and the `"cancelled"` status
intact. -/
theorem process_batch_loop_caught (τ : Nat) :
    ∀ r i, i ≤ (τ + 1) / 2 → (τ + 1) / 2 < i + r →
      process_batch_loop τ i r = ⟨"cancelled", (τ + 1) / 2⟩ := by
  intro r
  induction r with
  | zero => intro i h1 h2; omega
  | succ n ih =>
    intro i h1 h2
    by_cases hpoll : τ ≤ 2 * i
    · have hieq : i = (τ + 1) / 2 := by omega
      subst hieq
      simp [process_batch_loop, hpoll]
    · have hi : i + 1 ≤ (τ + 1) / 2 := by omega
      simp only [process_batch_loop, if_neg hpoll]
      exact ih (i + 1) hi (by omega)

/-- C1 (amended): if the out-of-band cancel of a batch of `m` items lands
after `k` items were attempted (event index `τ ∈ {2k, 2k+1}`) **and before the
poll of the final item** (`τ + 2 ≤ 2m`), `process_batch` stops at the next
item boundary, persists `processed_count ∈ {k, k+1}`, and the status stays
`"cancelled"`.  If instead the cancel lands at or after the final poll
(`2m ≤ τ + 1`), the loop finishes every item and the unconditional terminal
write overwrites the status to `"completed"` with `processed_count = m`. -/
theorem C1_cancellation_amended (m k τ : Nat) (h1 : 2 * k ≤ τ) (h2 : τ ≤ 2 * k + 1) :
    (τ + 2 ≤ 2 * m →
      process_batch_cancelled m τ = ⟨"cancelled", k⟩ ∨
      process_batch_cancelled m τ = ⟨"cancelled", k + 1⟩) ∧
    (2 * m ≤ τ + 1 → process_batch_cancelled m τ = ⟨"completed", m⟩) := by
  constructor
  · intro hin
    have hj : (τ + 1) / 2 = k ∨ (τ + 1) / 2 = k + 1 := by omega
    have hrun := process_batch_loop_caught τ m 0 (by omega) (by omega)
    rcases hj with hj | hj
    · left; rw [process_batch_cancelled, hrun, hj]
    · right; rw [process_batch_cancelled, hrun, hj]
  · intro hlate
    have := process_batch_loop_late τ m 0 (by omega)
    simpa [process_batch_cancelled] using this

/-- Witness for C1 (amended): batch of 3 items, cancel lands right after the
first item finished (`k = 1`, `τ = 2`); the run stops at the second item's
poll with `processed_count = 1` and status `"cancelled"`. -/
theorem C1_cancellation_amended_witness :
    process_batch_cancelled 3 2 = ⟨"cancelled", 1⟩ ∨
    process_batch_cancelled 3 2 = ⟨"cancelled", 1 + 1⟩ :=
  (C1_cancellation_amended 3 1 2 (by decide) (by decide)).1 (by decide)

/-- Counterexample to C1 as stated: one-item batch (`m = 1`), the cancel
lands while that item is in flight (after the poll, `τ = 1`, `k = 0` items
attempted; `stop_batch` succeeds because the row still reads `"processing"`).
The claim predicts a final `"cancelled"` status with `processed_count ∈
{0, 1}`; the code's unconditional terminal write instead persists
`"completed"` with `processed_count = 1`. -/
theorem C1_cancellation_counterexample :
    process_batch_cancelled 1 1 = ⟨"completed", 1⟩ ∧
    process_batch_cancelled 1 1 ≠ ⟨"cancelled", 0⟩ ∧
    process_batch_cancelled 1 1 ≠ ⟨"cancelled", 1⟩ := by
  refine ⟨rfl, ?_, ?_⟩ <;> decide

/-! ## Job creation (`BatchProcessor.split_upcs_into_batches` / `create_batch_job`)

`create_batch_job` (`batch_processor.py` lines 43-101) splits the UPC list
into chunks of `self.batch_size = 119`, inserts one `batch_jobs` row
(status `"pending"`, `total_batches` = number of chunks,
`completed_batches = 0`), then for each chunk — in ascending
`batch_number` starting at 1 — inserts one `upc_batches` row
(status `"pending"`, `upc_count` = chunk size, `processed_count = 0`)
followed by the chunk's `upc_batch_items` rows (all status `"pending"`).
The generated row ids are abstracted away: an item row references its batch
by the `batch_number` of the `upc_batches` row inserted directly before it. -/

/-- `self.batch_size = 119  # ~119 UPCs per batch (2500 / 21 ≈ 119)`. -/
def batch_size : Nat := 119

/-- Embedding of `BatchProcessor.split_upcs_into_batches` (lines 27-41):
`for i in range(0, len(upcs), self.batch_size): batches.append(upcs[i:i+batch_size])`. -/
def split_upcs_into_batches : List String → List (List String)
  | [] => []
  | u :: rest =>
    ((u :: rest).take batch_size) :: split_upcs_into_batches ((u :: rest).drop batch_size)
termination_by l => l.length
decreasing_by simp only [batch_size, List.length_drop, List.length_cons]; omega

/-- Fields of the inserted `batch_jobs` row that `create_batch_job` sets. -/
structure JobRow where
  job_name : String
  status : String
  total_batches : Nat
  completed_batches : Nat
deriving DecidableEq, Repr

/-- Fields of an inserted `upc_batches` row. -/
structure BatchRow where
  batch_number : Nat
  status : String
  upc_count : Nat
  processed_count : Nat
deriving DecidableEq, Repr

/-- Fields of an inserted `upc_batch_items` row (`batch_number` stands for the
`upc_batch_id` foreign key). -/
structure ItemRow where
  batch_number : Nat
  upc : String
  status : String
deriving DecidableEq, Repr

/-- One persistence call issued by `create_batch_job`. -/
inductive DbInsert where
  | job (row : JobRow)
  | batch (row : BatchRow)
  | items (rows : List ItemRow)
deriving DecidableEq, Repr

/-- The `for batch_num, batch_upcs in enumerate(batches, start=1):` loop of
`create_batch_job`: per chunk, one `upc_batches` insert followed by one bulk
`upc_batch_items` insert. -/
def insert_batches : Nat → List (List String) → List DbInsert
  | _, [] => []
  | batch_num, batch_upcs :: rest =>
    DbInsert.batch ⟨batch_num, "pending", batch_upcs.length, 0⟩ ::
    DbInsert.items (batch_upcs.map fun u => ⟨batch_num, u, "pending"⟩) ::
    insert_batches (batch_num + 1) rest

/-- Embedding of `BatchProcessor.create_batch_job` (lines 43-101) as the
ordered trace of persistence calls it issues before returning. -/
def create_batch_job (job_name : String) (upcs : List String) : List DbInsert :=
  let batches := split_upcs_into_batches upcs
  DbInsert.job ⟨job_name, "pending", batches.length, 0⟩ :: insert_batches 1 batches

/-- The `batch_jobs` rows of a trace. -/
def job_rows (writes : List DbInsert) : List JobRow :=
  writes.filterMap fun w => match w with | .job r => some r | _ => none

/-- The `upc_batches` rows of a trace, in insertion order. -/
def batch_rows (writes : List DbInsert) : List BatchRow :=
  writes.filterMap fun w => match w with | .batch r => some r | _ => none

/-- The `upc_batch_items` rows of a trace, in insertion order. -/
def item_rows (writes : List DbInsert) : List ItemRow :=
  (writes.filterMap fun w => match w with | .items rs => some rs | _ => none).flatten

/-- The chunking loop produces `⌈N / batch_size⌉` chunks. -/
theorem split_upcs_length (upcs : List String) :
    (split_upcs_into_batches upcs).length =
      (upcs.length + batch_size - 1) / batch_size := by
  induction upcs using split_upcs_into_batches.induct with
  | case1 =>
    rw [split_upcs_into_batches]
    decide
  | case2 u rest ih =>
    rw [split_upcs_into_batches]
    simp only [List.length_cons, List.length_drop] at ih ⊢
    rw [ih]
    simp only [batch_size]
    omega

/-- Concatenating the chunks gives back the input list. -/
theorem split_upcs_flatten (upcs : List String) :
    (split_upcs_into_batches upcs).flatten = upcs := by
  induction upcs using split_upcs_into_batches.induct with
  | case1 => rw [split_upcs_into_batches]; rfl
  | case2 u rest ih =>
    rw [split_upcs_into_batches]
    simp only [List.flatten_cons, ih, List.take_append_drop]

theorem job_rows_cons_job (r : JobRow) (ws : List DbInsert) :
    job_rows (DbInsert.job r :: ws) = r :: job_rows ws := by
  simp [job_rows]

theorem job_rows_cons_batch (r : BatchRow) (ws : List DbInsert) :
    job_rows (DbInsert.batch r :: ws) = job_rows ws := by
  simp [job_rows]

theorem job_rows_cons_items (rs : List ItemRow) (ws : List DbInsert) :
    job_rows (DbInsert.items rs :: ws) = job_rows ws := by
  simp [job_rows]

theorem batch_rows_cons_job (r : JobRow) (ws : List DbInsert) :
    batch_rows (DbInsert.job r :: ws) = batch_rows ws := by
  simp [batch_rows]

theorem batch_rows_cons_batch (r : BatchRow) (ws : List DbInsert) :
    batch_rows (DbInsert.batch r :: ws) = r :: batch_rows ws := by
  simp [batch_rows]

theorem batch_rows_cons_items (rs : List ItemRow) (ws : List DbInsert) :
    batch_rows (DbInsert.items rs :: ws) = batch_rows ws := by
  simp [batch_rows]

theorem item_rows_cons_job (r : JobRow) (ws : List DbInsert) :
    item_rows (DbInsert.job r :: ws) = item_rows ws := by
  simp [item_rows]

theorem item_rows_cons_batch (r : BatchRow) (ws : List DbInsert) :
    item_rows (DbInsert.batch r :: ws) = item_rows ws := by
  simp [item_rows]

theorem item_rows_cons_items (rs : List ItemRow) (ws : List DbInsert) :
    item_rows (DbInsert.items rs :: ws) = rs ++ item_rows ws := by
  simp [item_rows]

theorem job_rows_insert_batches (bs : List (List String)) :
    ∀ n, job_rows (insert_batches n bs) = [] := by
  induction bs with
  | nil => intro n; rfl
  | cons b rest ih =>
    intro n
    rw [insert_batches, job_rows_cons_batch, job_rows_cons_items]
    exact ih (n + 1)

theorem batch_rows_insert_batches (bs : List (List String)) :
    ∀ n, batch_rows (insert_batches n bs) =
      List.zipWith (fun num b => ⟨num, "pending", b.length, 0⟩) (List.range' n bs.length) bs := by
  induction bs with
  | nil => intro n; rfl
  | cons b rest ih =>
    intro n
    rw [insert_batches, batch_rows_cons_batch, batch_rows_cons_items, ih (n + 1),
      List.length_cons, List.range'_succ, List.zipWith_cons_cons]

theorem item_rows_insert_batches_upc (bs : List (List String)) :
    ∀ n, (item_rows (insert_batches n bs)).map ItemRow.upc = bs.flatten := by
  induction bs with
  | nil => intro n; rfl
  | cons b rest ih =>
    intro n
    rw [insert_batches, item_rows_cons_batch, item_rows_cons_items, List.map_append,
      ih (n + 1), List.flatten_cons, List.map_map]
    congr 1
    have hcomp : (ItemRow.upc ∘ fun u => (⟨n, u, "pending"⟩ : ItemRow)) = fun u => u := rfl
    rw [hcomp]
    exact List.map_id' b

theorem item_rows_insert_batches_pending (bs : List (List String)) :
    ∀ n, (item_rows (insert_batches n bs)).all (fun it => it.status == "pending") = true := by
  induction bs with
  | nil => intro n; rfl
  | cons b rest ih =>
    intro n
    rw [insert_batches, item_rows_cons_batch, item_rows_cons_items, List.all_append,
      Bool.and_eq_true]
    exact ⟨by simp [List.all_eq_true], ih (n + 1)⟩

theorem zipWith_keep_left {α β : Type} :
    ∀ (r : List α) (b : List β), r.length = b.length →
      List.zipWith (fun x _ => x) r b = r := by
  intro r
  induction r with
  | nil => intro b _; rfl
  | cons x xs ih =>
    intro b hb
    cases b with
    | nil => simp at hb
    | cons y ys => rw [List.zipWith_cons_cons, ih ys (by simpa using hb)]

theorem zipWith_keep_right_map {α β γ : Type} (g : β → γ) :
    ∀ (r : List α) (b : List β), r.length = b.length →
      List.zipWith (fun _ y => g y) r b = b.map g := by
  intro r
  induction r with
  | nil =>
    intro b hb
    cases b with
    | nil => rfl
    | cons y ys => simp at hb
  | cons x xs ih =>
    intro b hb
    cases b with
    | nil => simp at hb
    | cons y ys => rw [List.zipWith_cons_cons, List.map_cons, ih ys (by simpa using hb)]

theorem zipWith_batch_row_all_pending :
    ∀ (r : List Nat) (b : List (List String)),
      (List.zipWith (fun num (bb : List String) =>
        (⟨num, "pending", bb.length, 0⟩ : BatchRow)) r b).all
        (fun br => br.status == "pending" && br.processed_count == 0) = true := by
  intro r
  induction r with
  | nil => intro b; rfl
  | cons x xs ih =>
    intro b
    cases b with
    | nil => rfl
    | cons y ys => simp [ih ys]

/-- C4: `create_batch_job` on `N` identifiers persists — before returning —
one `"pending"` Job row with `total_batches = ⌈N / 119⌉` and
`completed_batches = 0`; exactly `⌈N / 119⌉` Batch rows (ascending, gap-free
sequence numbers `1, …, ⌈N / 119⌉` in insertion order), all `"pending"` with
`processed_count = 0` and with `upc_count`s summing to `N`; and one Item row
per identifier (in input order), all `"pending"`. -/
theorem C4_create_job_partition (job_name : String) (upcs : List String) :
    job_rows (create_batch_job job_name upcs) =
      [⟨job_name, "pending", (upcs.length + batch_size - 1) / batch_size, 0⟩] ∧
    (batch_rows (create_batch_job job_name upcs)).map BatchRow.batch_number =
      List.range' 1 ((upcs.length + batch_size - 1) / batch_size) ∧
    ((batch_rows (create_batch_job job_name upcs)).map BatchRow.upc_count).sum = upcs.length ∧
    (batch_rows (create_batch_job job_name upcs)).all
      (fun b => b.status == "pending" && b.processed_count == 0) = true ∧
    (item_rows (create_batch_job job_name upcs)).map ItemRow.upc = upcs ∧
    (item_rows (create_batch_job job_name upcs)).all
      (fun it => it.status == "pending") = true := by
  have hlen := split_upcs_length upcs
  have hflat := split_upcs_flatten upcs
  have hrange : (List.range' 1 (split_upcs_into_batches upcs).length).length =
      (split_upcs_into_batches upcs).length := by simp
  refine ⟨?_, ?_, ?_, ?_, ?_, ?_⟩
  · rw [create_batch_job, job_rows_cons_job, job_rows_insert_batches, hlen]
  · rw [create_batch_job, batch_rows_cons_job, batch_rows_insert_batches,
      List.map_zipWith]
    show List.zipWith (fun x _ => x) _ _ = _
    rw [zipWith_keep_left _ _ hrange, hlen]
  · rw [create_batch_job, batch_rows_cons_job, batch_rows_insert_batches,
      List.map_zipWith]
    show (List.zipWith (fun _ y => List.length y) _ _).sum = _
    rw [zipWith_keep_right_map List.length _ _ hrange, ← List.length_flatten, hflat]
  · rw [create_batch_job, batch_rows_cons_job, batch_rows_insert_batches]
    exact zipWith_batch_row_all_pending _ _
  · rw [create_batch_job, item_rows_cons_job, item_rows_insert_batches_upc, hflat]
  · rw [create_batch_job, item_rows_cons_job, item_rows_insert_batches_pending]

/-- Counterexample to C8 as stated: for the empty identifier list,
`create_batch_job` performs no validation and *does* persist a Job row —
`{job_name, status: "pending", total_batches: 0, completed_batches: 0}` —
before returning the new job id (the request model `BatchJobCreate` imposes
no minimum length, and neither `api/jobs.py create_job` nor
`BatchProcessor.create_batch_job` checks for emptiness). -/
theorem C8_empty_list_counterexample :
    create_batch_job "Nightly Run" [] =
      [DbInsert.job ⟨"Nightly Run", "pending", 0, 0⟩] ∧
    job_rows (create_batch_job "Nightly Run" []) ≠ [] := by
  have h : split_upcs_into_batches [] = [] := by rw [split_upcs_into_batches]
  constructor
  · simp [create_batch_job, h, insert_batches]
  · simp [create_batch_job, h, insert_batches, job_rows]

/-- C8 (amended): creating a job with an empty identifier list is *not*
rejected; `create_batch_job` persists exactly one Job row (status
`"pending"`, `total_batches = 0`, `completed_batches = 0`) and no Batch or
Item rows, then returns normally. -/
theorem C8_empty_list_amended (job_name : String) :
    create_batch_job job_name [] = [DbInsert.job ⟨job_name, "pending", 0, 0⟩] := by
  have h : split_upcs_into_batches [] = [] := by rw [split_upcs_into_batches]
  simp [create_batch_job, h, insert_batches]

/-! ## Per-item error handling (`KeepaClient.fetch_product_data` +
`BatchProcessor.process_batch` item loop)

`fetch_product_data` (`keepa_client.py` lines 101-131) wraps the
`_make_request` call in `try/except Exception: return None` — every
client-level failure (retry limit exceeded on 429/5xx/transport error, a
non-retryable 4xx, an `error` key in the body) is swallowed and surfaces as
`None`, indistinguishable from a truthy-check failure.  The item loop of
`process_batch` (`batch_processor.py` lines 166-223) then takes the
`if keepa_response:` falsy branch and marks the item
`{status: "completed", error_message: "No data found in Keepa"}`; its
`except` branch (mark item `"failed"` with the captured message) is
unreachable from client errors because `fetch_product_data` never raises.
The raw payload is modelled as a JSON object (association list); Python
truthiness of a dict is non-emptiness.  The `_make_request` outcome for one
item is an `Except`: `.error msg` when it raises, `.ok payload` otherwise. -/

/-- Embedding of `KeepaClient.fetch_product_data`: return the payload of a
successful `_make_request`, and `None` whenever it raised. -/
def fetch_product_data (reqResult : Except String (List (String × String))) :
    Option (List (String × String)) :=
  match reqResult with
  | .ok data => some data
  | .error _ => none

/-- The fields of a `upc_batch_items` row written by one iteration of the
item loop. -/
structure ItemUpdate where
  status : String
  error_message : Option String
deriving DecidableEq, Repr

/-- One iteration of the item loop of `process_batch` (lines 166-223),
restricted to the Keepa-fetch outcome (persistence and analyzer steps are
assumed not to raise; they are the only way into the `except` branch that
marks an item `"failed"`). -/
def process_batch_item (reqResult : Except String (List (String × String))) : ItemUpdate :=
  match fetch_product_data reqResult with
  | some keepa_response =>
    if keepa_response.isEmpty then ⟨"completed", some "No data found in Keepa"⟩
    else ⟨"completed", none⟩
  | none => ⟨"completed", some "No data found in Keepa"⟩

/-- The item loop over a whole batch: one `ItemUpdate` per item plus the
final `processed_count`, which is incremented for every attempted item
regardless of outcome. -/
def process_batch_items (reqs : List (Except String (List (String × String)))) :
    List ItemUpdate × Nat :=
  match reqs with
  | [] => ([], 0)
  | r :: rest =>
    let upd := process_batch_item r
    let (upds, n) := process_batch_items rest
    (upd :: upds, n + 1)

/-- Counterexample to C2 as stated: an item whose client call exhausts the
retry limit on HTTP 429 (`_make_request` raises `"Max retries exceeded due
to rate limiting"`) is *not* marked `"failed"` and the raised message is
*not* captured — the swallowed failure is persisted as a `"completed"` item
with `error_message = "No data found in Keepa"`. -/
theorem C2_client_failure_counterexample :
    process_batch_item (.error "Max retries exceeded due to rate limiting") =
      ⟨"completed", some "No data found in Keepa"⟩ ∧
    (process_batch_item (.error "Max retries exceeded due to rate limiting")).status ≠
      "failed" ∧
    (process_batch_item (.error "Max retries exceeded due to rate limiting")).error_message ≠
      some "Max retries exceeded due to rate limiting" := by
  refine ⟨rfl, ?_, ?_⟩ <;> decide

/-- C2 (amended): a client-level failure never reaches the item loop —
`fetch_product_data` converts every raised client error into `None`, so the
item is marked `"completed"` with `error_message = "No data found in Keepa"`
(not `"failed"`, and without the raised message).  Processing continues with
the next item: the loop attempts every item and counts every attempt, so a
client failure never aborts the batch (or the job). -/
theorem C2_client_failure_amended (msg : String)
    (reqs : List (Except String (List (String × String)))) :
    fetch_product_data (.error msg) = none ∧
    process_batch_item (.error msg) = ⟨"completed", some "No data found in Keepa"⟩ ∧
    (process_batch_items reqs).1.length = reqs.length ∧
    (process_batch_items reqs).2 = reqs.length := by
  refine ⟨rfl, rfl, ?_, ?_⟩ <;>
  · induction reqs with
    | nil => rfl
    | cons r rest ih => simp [process_batch_items, ih]

/-! ## Report compilation for zero processed items
(`CSVGenerator.generate_comprehensive_report_csv`)

`generate_comprehensive_report_csv` (`csv_generator.py` lines 477-669) builds
one `csv_data` dict per processed item — each with exactly the twelve report
keys plus the internal `"_is_off_price"` flag — then:
`df = pd.DataFrame(csv_data)`; for each of the twelve `required_columns`
missing from `df.columns` it assigns `df[col] = ""`; finally it selects
`df = df[required_columns + ["_is_off_price"]]` and writes one header row
plus one worksheet row per item.  `pandas.DataFrame([])` has *no* columns, so
for zero items the fill loop adds only the twelve required columns and the
selection raises `KeyError: "['_is_off_price'] not in index"`.
`ReportService.generate_csv_for_job` (`report_service.py` lines 38-44) calls
exactly this with `[]` when a job has no processed items (the comment there —
"Return empty Excel file with headers" — states the intended behaviour).
Only the column bookkeeping and the row count are modelled; `nItems` is the
number of processed items (each contributing one full-keyed dict). -/

/-- The twelve report columns of `required_columns`
(`csv_generator.py` lines 608-612). -/
def required_columns : List String :=
  ["UPC", "ASIN", "Product Title", "Brand", "Off Price Listing",
   "MSRP", "Current Amazon Price", "Price Difference",
   "Buy Box Seller Price", "Buy Box Seller", "Discount %", "Amazon URL"]

/-- Keys of each `csv_data` row dict (lines 588-602): the twelve report
columns plus the internal formatting flag. -/
def report_row_keys : List String := required_columns ++ ["_is_off_price"]

/-- Columns of `pd.DataFrame(csv_data)`: the row-dict keys when there is at
least one row, none for the empty frame. -/
def dataframe_columns (nItems : Nat) : List String :=
  if nItems = 0 then [] else report_row_keys

/-- The `for col in required_columns: if col not in df.columns: df[col] = ""`
loop (lines 614-616). -/
def ensure_required_columns (cols : List String) : List String :=
  required_columns.foldl (fun cs c => if cs.contains c then cs else cs ++ [c]) cols

/-- The selection `df = df[required_columns + ["_is_off_price"]]` (line 619):
raises `KeyError` when any requested column is absent. -/
def select_report_columns (cols : List String) : Except String (List String) :=
  let sel := required_columns ++ ["_is_off_price"]
  if sel.all cols.contains then .ok sel
  else .error "KeyError: [_is_off_price] not in index"

/-- `generate_comprehensive_report_csv` reduced to its column bookkeeping:
returns the written document's header row and its number of data rows, or
the raised error. -/
def generate_comprehensive_report_csv (nItems : Nat) :
    Except String (List String × Nat) :=
  match select_report_columns (ensure_required_columns (dataframe_columns nItems)) with
  | .ok _ => .ok (required_columns, nItems)
  | .error e => .error e

/-- C3 is right about the intent and the code is wrong:
`generate_comprehensive_report_csv` on zero processed items *raises*
(`KeyError: "['_is_off_price'] not in index"`) instead of returning the
header-only document, because the empty DataFrame never receives the
internal `"_is_off_price"` column that the final selection demands; with at
least one item the selection succeeds and the document has the twelve-column
header row plus one row per item. -/
theorem C3_empty_report_raises :
    generate_comprehensive_report_csv 0 =
      .error "KeyError: [_is_off_price] not in index" ∧
    generate_comprehensive_report_csv 1 = .ok (required_columns, 1) := by
  constructor <;> rfl

/-! ## Price deviation analyzer (`PriceAnalyzer`)

`price_analyzer.py`: `extract_price_history` (lines 46-86) walks the Keepa
`csv` array — entries `[time, price_new, price_used, …]` of minute
timestamps and integer prices with `-1` as the unknown sentinel — keeping
`price_new` when known, else `price_used`, else skipping the entry.
`get_current_prices` (lines 88-118) keeps each listed seller whose `price`
is truthy (present and non-zero) and strictly positive; the kept
`seller_info` always has a concrete price, so the model stores it as a plain
`Rat`.  `calculate_average_historical_price` (lines 120-159) averages the
points of the last `days` days (cutoff `current_time - days·24·60` in
minutes; `current_time` — `int(time.time()/60)` in the source — is a model
parameter), falling back to the whole series when the window is empty.
`detect_off_price_sellers` (lines 161-226) emits one record per current
seller with `0 < price < average`, carrying the absolute and percent delta
`(price - avg) / avg · 100`. -/

/-- A parsed price-history point (`extract_price_history` output dict). -/
structure PriceEntry where
  timestamp : Int
  price : Rat
  is_new : Bool
deriving DecidableEq, Repr

/-- Embedding of `PriceAnalyzer.extract_price_history` (lines 46-86). -/
def extract_price_history (csv_data : List (List Int)) : List PriceEntry :=
  csv_data.filterMap fun entry =>
    match entry with
    | t :: p1 :: p2 :: _ =>
      let price_new : Option Int := if p1 ≠ -1 then some p1 else none
      let price_used : Option Int := if p2 ≠ -1 then some p2 else none
      (match price_new with
       | some p => some ⟨t, (p : Rat), true⟩
       | none =>
         match price_used with
         | some p => some ⟨t, (p : Rat), false⟩
         | none => none)
    | _ => none

/-- One entry of the Keepa `current_sellers` array as JSON: absent keys are
`none` (`isFBA` defaults to `False` on access, so it is kept plain). -/
structure KeepaSellerJson where
  sellerId : Option String
  sellerName : Option String
  price : Option Rat
  isFBA : Bool
  condition : Option String
deriving DecidableEq, Repr

/-- A kept `seller_info` dict of `get_current_prices` (its `price` is never
`None` in an appended entry, so it is stored plainly). -/
structure SellerInfo where
  seller_id : Option String
  seller_name : String
  price : Rat
  is_fba : Bool
  condition : String
deriving DecidableEq, Repr

/-- Embedding of `PriceAnalyzer.get_current_prices` (lines 88-118): a falsy
(`None` or `0`) price becomes `None`; only sellers with a known strictly
positive price are kept. -/
def get_current_prices (sellers : List KeepaSellerJson) : List SellerInfo :=
  sellers.filterMap fun seller =>
    let price : Option Rat :=
      match seller.price with
      | some p => if p = 0 then none else some p
      | none => none
    match price with
    | some p =>
      if 0 < p then
        some ⟨seller.sellerId, seller.sellerName.getD "Unknown", p, seller.isFBA,
              seller.condition.getD "New"⟩
      else none
    | none => none

/-- Embedding of `PriceAnalyzer.calculate_average_historical_price`
(lines 120-159). -/
def calculate_average_historical_price (current_time : Int)
    (price_history : List PriceEntry) (days : Nat := 30) : Option Rat :=
  if price_history = [] then none
  else
    let cutoff_time : Int := current_time - (days : Int) * 24 * 60
    let recent_prices :=
      (price_history.filter fun e => cutoff_time ≤ e.timestamp).map PriceEntry.price
    let recent_prices :=
      if recent_prices = [] then price_history.map PriceEntry.price else recent_prices
    if recent_prices = [] then none
    else some (recent_prices.sum / (recent_prices.length : Rat))

/-- An emitted `off_price_seller` record (lines 210-219). -/
structure OffPriceSeller where
  seller_id : Option String
  seller_name : String
  current_price : Rat
  historical_price : Rat
  price_change : Rat
  price_change_percent : Rat
  is_fba : Bool
  condition : String
deriving DecidableEq, Repr

/-- The parts of a parsed Keepa product consumed by the analyzer
(`parse_keepa_data` output: `current_sellers` and the price-history `csv`). -/
structure KeepaData where
  current_sellers : List KeepaSellerJson
  csv : List (List Int)
deriving DecidableEq, Repr

/-- Embedding of `PriceAnalyzer.detect_off_price_sellers` (lines 161-226).
The kept sellers all carry a concrete price, so the source's
`current_price is None` guard is only the `≤ 0` part here. -/
def detect_off_price_sellers (current_time : Int) (keepa_data : KeepaData)
    (historical_days : Nat := 30) : List OffPriceSeller :=
  let current_prices := get_current_prices keepa_data.current_sellers
  if current_prices = [] then []
  else
    let price_history := extract_price_history keepa_data.csv
    if price_history = [] then []
    else
      match calculate_average_historical_price current_time price_history historical_days with
      | none => []
      | some avg_historical_price =>
        current_prices.filterMap fun seller =>
          if seller.price ≤ 0 then none
          else if seller.price < avg_historical_price then
            some ⟨seller.seller_id, seller.seller_name, seller.price, avg_historical_price,
                  seller.price - avg_historical_price,
                  (seller.price - avg_historical_price) / avg_historical_price * 100,
                  seller.is_fba, seller.condition⟩
          else none

/-- Every seller kept by `get_current_prices` has a strictly positive price. -/
theorem get_current_prices_pos (sellers : List KeepaSellerJson) :
    ∀ s ∈ get_current_prices sellers, 0 < s.price := by
  intro s hs
  simp only [get_current_prices, List.mem_filterMap] at hs
  obtain ⟨seller, _, hmatch⟩ := hs
  rcases hp : seller.price with _ | p
  · rw [hp] at hmatch
    simp at hmatch
  · rw [hp] at hmatch
    by_cases h0 : p = 0
    · simp [h0] at hmatch
    · by_cases hpos : 0 < p
      · simp only [h0, if_false, hpos, if_true] at hmatch
        cases hmatch
        exact hpos
      · simp [h0, hpos] at hmatch

theorem detect_filterMap_eq_filter_map (avg : Rat) (l : List SellerInfo)
    (hpos : ∀ s ∈ l, 0 < s.price) :
    (l.filterMap fun seller =>
      if seller.price ≤ 0 then none
      else if seller.price < avg then
        some (⟨seller.seller_id, seller.seller_name, seller.price, avg,
               seller.price - avg, (seller.price - avg) / avg * 100,
               seller.is_fba, seller.condition⟩ : OffPriceSeller)
      else none) =
    (l.filter fun s => decide (s.price < avg)).map
      fun s => (⟨s.seller_id, s.seller_name, s.price, avg, s.price - avg,
                 (s.price - avg) / avg * 100, s.is_fba, s.condition⟩ : OffPriceSeller) := by
  induction l with
  | nil => rfl
  | cons x xs ih =>
    have hx : ¬ x.price ≤ 0 := not_le.mpr (hpos x (List.mem_cons_self x xs))
    have ihx := ih fun s hs => hpos s (List.mem_cons_of_mem x hs)
    by_cases hlt : x.price < avg
    · simp [List.filterMap_cons, List.filter_cons, hx, hlt, ihx]
    · simp [List.filterMap_cons, List.filter_cons, hx, hlt, ihx]

/-- C6: the historical reference is the mean of the points within the last
`days` days, falling back to the mean of the full series when no point is in
the window; an empty series produces no off-price sellers (and no error —
the function is total and returns `[]`); and given the computed reference
`avg`, the emitted records are exactly the kept sellers with
`0 < price < avg` (positivity being guaranteed by `get_current_prices`),
each carrying percent change `(price − avg) / avg · 100`. -/
theorem C6_analyzer_reference_and_emission (ct : Int) (days : Nat)
    (hist : List PriceEntry) (kd : KeepaData) (avg : Rat) :
    ((hist.filter fun e => ct - (days : Int) * 24 * 60 ≤ e.timestamp) ≠ [] →
      calculate_average_historical_price ct hist days =
        some (((hist.filter fun e => ct - (days : Int) * 24 * 60 ≤ e.timestamp).map
            PriceEntry.price).sum /
          (((hist.filter fun e => ct - (days : Int) * 24 * 60 ≤ e.timestamp).map
            PriceEntry.price).length : Rat))) ∧
    (hist ≠ [] → (hist.filter fun e => ct - (days : Int) * 24 * 60 ≤ e.timestamp) = [] →
      calculate_average_historical_price ct hist days =
        some ((hist.map PriceEntry.price).sum / ((hist.map PriceEntry.price).length : Rat))) ∧
    (kd.csv = [] → detect_off_price_sellers ct kd days = []) ∧
    (calculate_average_historical_price ct (extract_price_history kd.csv) days = some avg →
      detect_off_price_sellers ct kd days =
        ((get_current_prices kd.current_sellers).filter fun s => decide (s.price < avg)).map
          fun s => ⟨s.seller_id, s.seller_name, s.price, avg, s.price - avg,
                    (s.price - avg) / avg * 100, s.is_fba, s.condition⟩) := by
  refine ⟨?_, ?_, ?_, ?_⟩
  · intro hw
    have hne : hist ≠ [] := by
      intro h
      rw [h] at hw
      exact hw rfl
    have hmap : (hist.filter fun e => ct - (days : Int) * 24 * 60 ≤ e.timestamp).map
        PriceEntry.price ≠ [] := by
      simpa using hw
    simp only [calculate_average_historical_price, hne, if_false, hmap, if_true]
  · intro hne hw
    have hmap : (hist.filter fun e => ct - (days : Int) * 24 * 60 ≤ e.timestamp).map
        PriceEntry.price = [] := by
      rw [hw]; rfl
    have hfull : hist.map PriceEntry.price ≠ [] := by
      simpa using hne
    simp only [calculate_average_historical_price, hne, if_false, hmap, if_true, hfull]
  · intro hcsv
    have hhist : extract_price_history kd.csv = [] := by
      rw [hcsv]; rfl
    simp only [detect_off_price_sellers, hhist, if_true]
    split <;> rfl
  · intro havg
    have hhist : extract_price_history kd.csv ≠ [] := by
      intro h
      rw [h] at havg
      simp [calculate_average_historical_price] at havg
    by_cases hcur : get_current_prices kd.current_sellers = []
    · simp only [detect_off_price_sellers, hcur, if_true, List.filter_nil, List.map_nil]
    · simp only [detect_off_price_sellers, hcur, if_false, hhist, havg]
      exact detect_filterMap_eq_filter_map avg _ (get_current_prices_pos _)

/-- Witness for C6: the spec's worked example.  Series `[10, 12, 8]` (all
within the 30-day window of `current_time = 100000` minutes, mean `10`);
sellers at `7`, `10` and `11`: only the seller at `7` is emitted, with
`price_change_percent = −30`. -/
theorem C6_analyzer_reference_and_emission_witness :
    detect_off_price_sellers 100000
      ⟨[⟨some "A", some "SellerA", some 7, false, some "New"⟩,
        ⟨some "B", some "SellerB", some 10, false, some "New"⟩,
        ⟨some "C", some "SellerC", some 11, false, some "New"⟩],
       [[99000, 10, -1], [99100, 12, -1], [99200, 8, -1]]⟩ 30 =
      [⟨some "A", "SellerA", 7, 10, -3, -30, false, "New"⟩] := by
  rw [(C6_analyzer_reference_and_emission 100000 30
    (extract_price_history [[99000, 10, -1], [99100, 12, -1], [99200, 8, -1]])
    ⟨[⟨some "A", some "SellerA", some 7, false, some "New"⟩,
      ⟨some "B", some "SellerB", some 10, false, some "New"⟩,
      ⟨some "C", some "SellerC", some 11, false, some "New"⟩],
     [[99000, 10, -1], [99100, 12, -1], [99200, 8, -1]]⟩ 10).2.2.2 ?_]
  · norm_num [get_current_prices, List.filterMap_cons, List.filter_cons]
  · norm_num [calculate_average_historical_price, extract_price_history, List.filterMap_cons,
      List.filter_cons]
    exact ⟨by simp, by simp⟩

/-- C10: every record emitted by `detect_off_price_sellers` satisfies
`0 < current_price < historical_price`, and therefore both `price_change`
and `price_change_percent` are strictly negative — a seller with a
non-positive price (dropped by `get_current_prices` and by the loop's own
guard) or a price at or above the reference (the strict `<` check) is never
emitted. -/
theorem C10_offprice_record_invariant (ct : Int) (days : Nat) (kd : KeepaData)
    (r : OffPriceSeller) (hr : r ∈ detect_off_price_sellers ct kd days) :
    0 < r.current_price ∧ r.current_price < r.historical_price ∧
    r.price_change < 0 ∧ r.price_change_percent < 0 := by
  simp only [detect_off_price_sellers] at hr
  split at hr
  · exact absurd hr (List.not_mem_nil r)
  · split at hr
    · exact absurd hr (List.not_mem_nil r)
    · split at hr
      · exact absurd hr (List.not_mem_nil r)
      · rename_i avg _
        rw [List.mem_filterMap] at hr
        obtain ⟨s, hs, hmk⟩ := hr
        have hspos : 0 < s.price := get_current_prices_pos _ s hs
        rw [if_neg (not_le.mpr hspos)] at hmk
        by_cases hlt : s.price < avg
        · rw [if_pos hlt] at hmk
          cases hmk
          refine ⟨hspos, hlt, sub_neg.mpr hlt, ?_⟩
          have havg : (0 : Rat) < avg := lt_trans hspos hlt
          have hdiv : (s.price - avg) / avg < 0 :=
            div_neg_of_neg_of_pos (sub_neg.mpr hlt) havg
          exact mul_neg_of_neg_of_pos hdiv (by norm_num)
        · rw [if_neg hlt] at hmk
          exact absurd hmk (by simp)

/-- Witness for C10 at the worked example: the emitted record for the
seller at `7` against reference `10` has positive current price below the
reference and strictly negative absolute and percent change. -/
theorem C10_offprice_record_invariant_witness :
    0 < (⟨some "A", "SellerA", 7, 10, -3, -30, false, "New"⟩ : OffPriceSeller).current_price ∧
    (⟨some "A", "SellerA", 7, 10, -3, -30, false, "New"⟩ : OffPriceSeller).current_price <
      (⟨some "A", "SellerA", 7, 10, -3, -30, false, "New"⟩ : OffPriceSeller).historical_price ∧
    (⟨some "A", "SellerA", 7, 10, -3, -30, false, "New"⟩ : OffPriceSeller).price_change < 0 ∧
    (⟨some "A", "SellerA", 7, 10, -3, -30, false, "New"⟩ : OffPriceSeller).price_change_percent < 0 :=
  C10_offprice_record_invariant 100000 30
    ⟨[⟨some "A", some "SellerA", some 7, false, some "New"⟩,
      ⟨some "B", some "SellerB", some 10, false, some "New"⟩,
      ⟨some "C", some "SellerC", some 11, false, some "New"⟩],
     [[99000, 10, -1], [99100, 12, -1], [99200, 8, -1]]⟩
    ⟨some "A", "SellerA", 7, 10, -3, -30, false, "New"⟩
    (by
      have h2 : calculate_average_historical_price 100000
          (extract_price_history [[99000, 10, -1], [99100, 12, -1], [99200, 8, -1]]) 30 =
          some 10 := by
        norm_num [calculate_average_historical_price, extract_price_history,
          List.filterMap_cons, List.filter_cons]
        exact ⟨by simp, by simp⟩
      have h3 : get_current_prices
          [⟨some "A", some "SellerA", some 7, false, some "New"⟩,
           ⟨some "B", some "SellerB", some 10, false, some "New"⟩,
           ⟨some "C", some "SellerC", some 11, false, some "New"⟩] =
          [⟨some "A", "SellerA", 7, false, "New"⟩,
           ⟨some "B", "SellerB", 10, false, "New"⟩,
           ⟨some "C", "SellerC", 11, false, "New"⟩] := by
        norm_num [get_current_prices, List.filterMap_cons]
      simp only [detect_off_price_sellers, h2, h3]
      norm_num [List.filterMap_cons]
      refine ⟨by simp, ?_⟩
      have hext : extract_price_history [[99000, 10, -1], [99100, 12, -1], [99200, 8, -1]] =
          [⟨99000, 10, true⟩, ⟨99100, 12, true⟩, ⟨99200, 8, true⟩] := by
        norm_num [extract_price_history, List.filterMap_cons]
      rw [hext]
      simp)

/-! ## Keepa client retry logic (`KeepaClient._make_request`)

`_make_request` (`keepa_client.py` lines 28-99) issues one HTTP GET per
attempt and dispatches on the outcome: a 2xx response with an `"error"` key
raises; HTTP 429 sleeps `retry_delay · 2^retry_count` and then retries while
`retry_count < max_retries`, else raises `"Max retries exceeded due to rate
limiting"` (note: the sleep happens even on the final, exhausted attempt);
a 5xx retries with the same backoff while `retry_count < max_retries`, else
re-raises the status error; any other 4xx re-raises immediately with no
retry and no wait; a transport error (`httpx.RequestError`) retries with the
backoff while `retry_count < max_retries`, else re-raises.  The constructor
sets `max_retries = 3` and `retry_delay = 2.0`.

The network is modelled by an oracle giving the outcome of attempt `i`; a
run is summarised by its result, the number of GETs issued, and the list of
backoff waits performed (the unconditional per-call `rate_limit_delay` of
`fetch_product_data` is not part of `_make_request`). -/

/-- Outcome of one HTTP attempt. -/
inductive AttemptOutcome where
  | ok (errorKey : Bool)
  | status (code : Nat)
  | transport
deriving DecidableEq, Repr

/-- Summary of a `_make_request` run: raised error or returned payload,
number of attempts issued, backoff waits performed (in order). -/
structure RequestTrace where
  result : Except String Unit
  attempts : Nat
  waits : List Rat
deriving Repr

/-- Embedding of `KeepaClient._make_request` (lines 28-99). -/
def make_request (max_retries : Nat) (retry_delay : Rat) (oracle : Nat → AttemptOutcome)
    (retry_count : Nat) : RequestTrace :=
  match oracle retry_count with
  | .ok errorKey =>
    if errorKey then ⟨.error "Keepa API error", 1, []⟩
    else ⟨.ok (), 1, []⟩
  | .status code =>
    if code = 429 then
      if _h : retry_count < max_retries then
        let t := make_request max_retries retry_delay oracle (retry_count + 1)
        ⟨t.result, t.attempts + 1, retry_delay * 2 ^ retry_count :: t.waits⟩
      else
        ⟨.error "Max retries exceeded due to rate limiting", 1,
         [retry_delay * 2 ^ retry_count]⟩
    else if _h : 500 ≤ code ∧ retry_count < max_retries then
      let t := make_request max_retries retry_delay oracle (retry_count + 1)
      ⟨t.result, t.attempts + 1, retry_delay * 2 ^ retry_count :: t.waits⟩
    else
      ⟨.error ("HTTPStatusError " ++ toString code), 1, []⟩
  | .transport =>
    if _h : retry_count < max_retries then
      let t := make_request max_retries retry_delay oracle (retry_count + 1)
      ⟨t.result, t.attempts + 1, retry_delay * 2 ^ retry_count :: t.waits⟩
    else
      ⟨.error "RequestError", 1, []⟩
termination_by max_retries + 1 - retry_count
decreasing_by all_goals omega

theorem make_request_all_429 (rd : Rat) :
    ∀ n rc, make_request (rc + n) rd (fun _ => .status 429) rc =
      ⟨.error "Max retries exceeded due to rate limiting", n + 1,
       (List.range' rc (n + 1)).map fun i => rd * 2 ^ i⟩ := by
  intro n
  induction n with
  | zero =>
    intro rc
    rw [make_request]
    simp
  | succ k ih =>
    intro rc
    have e : rc + (k + 1) = rc + 1 + k := by omega
    rw [e, make_request]
    have hlt : rc < rc + 1 + k := by omega
    simp only [if_pos rfl, hlt, dif_pos, ih (rc + 1), if_true]
    conv_rhs => rw [List.range'_succ]
    simp

theorem make_request_all_transport (rd : Rat) :
    ∀ n rc, make_request (rc + n) rd (fun _ => .transport) rc =
      ⟨.error "RequestError", n + 1, (List.range' rc n).map fun i => rd * 2 ^ i⟩ := by
  intro n
  induction n with
  | zero =>
    intro rc
    rw [make_request]
    simp
  | succ k ih =>
    intro rc
    have e : rc + (k + 1) = rc + 1 + k := by omega
    rw [e, make_request]
    have hlt : rc < rc + 1 + k := by omega
    simp only [hlt, dif_pos, ih (rc + 1)]
    rw [List.range'_succ]
    simp

theorem make_request_all_5xx (rd : Rat) (code : Nat) (h5 : 500 ≤ code) :
    ∀ n rc, make_request (rc + n) rd (fun _ => .status code) rc =
      ⟨.error ("HTTPStatusError " ++ toString code), n + 1,
       (List.range' rc n).map fun i => rd * 2 ^ i⟩ := by
  have hne : ¬ code = 429 := by omega
  intro n
  induction n with
  | zero =>
    intro rc
    rw [make_request]
    have hcond : ¬ (500 ≤ code ∧ rc < rc + 0) := by omega
    simp [hne, hcond]
  | succ k ih =>
    intro rc
    have e : rc + (k + 1) = rc + 1 + k := by omega
    rw [e, make_request]
    have hcond : 500 ≤ code ∧ rc < rc + 1 + k := ⟨h5, by omega⟩
    simp only [hne, if_false, hcond, dif_pos, ih (rc + 1)]
    rw [List.range'_succ]
    simp

theorem make_request_other_4xx (mr : Nat) (rd : Rat) (oracle : Nat → AttemptOutcome)
    (rc code : Nat) (hor : oracle rc = .status code) (h429 : code ≠ 429)
    (h5 : ¬ 500 ≤ code) :
    make_request mr rd oracle rc = ⟨.error ("HTTPStatusError " ++ toString code), 1, []⟩ := by
  rw [make_request, hor]
  have hcond : ¬ (500 ≤ code ∧ rc < mr) := fun h => h5 h.1
  simp [h429, hcond]

theorem make_request_429_429_ok :
    make_request 3 2 (fun i => if i < 2 then AttemptOutcome.status 429 else .ok false) 0 =
      ⟨.ok (), 3, [2 * 2 ^ 0, 2 * 2 ^ 1]⟩ := by
  have h2 : make_request 3 2 (fun i => if i < 2 then AttemptOutcome.status 429 else .ok false) 2 =
      ⟨.ok (), 1, []⟩ := by
    rw [make_request]
    simp
  have h1 : make_request 3 2 (fun i => if i < 2 then AttemptOutcome.status 429 else .ok false) 1 =
      ⟨.ok (), 2, [2 * 2 ^ 1]⟩ := by
    rw [make_request]
    simp [h2]
  rw [make_request]
  simp [h1]

/-- C7: `_make_request` with `max_retries = mr` and `retry_delay = rd`:
a non-429 4xx fails immediately after a single attempt with no backoff wait,
regardless of retries remaining; persistent 429 performs `mr + 1` attempts
with waits `rd·2⁰, …, rd·2^mr` (it sleeps once more before raising) and then
raises `"Max retries exceeded due to rate limiting"`; a persistent transport
error or 5xx performs `mr + 1` attempts with waits `rd·2⁰, …, rd·2^(mr−1)`
and then re-raises; and — the spec's example, at the constructor's
`max_retries = 3`, `retry_delay = 2` — two 429 responses followed by a clean
response return the payload on the third attempt, within the retry limit. -/
theorem C7_client_retry (mr : Nat) (rd : Rat) (oracle : Nat → AttemptOutcome) (rc code : Nat) :
    (oracle rc = .status code → 400 ≤ code → code < 500 → code ≠ 429 →
      make_request mr rd oracle rc = ⟨.error ("HTTPStatusError " ++ toString code), 1, []⟩) ∧
    (make_request mr rd (fun _ => .status 429) 0 =
      ⟨.error "Max retries exceeded due to rate limiting", mr + 1,
       (List.range (mr + 1)).map fun i => rd * 2 ^ i⟩) ∧
    (make_request mr rd (fun _ => .transport) 0 =
      ⟨.error "RequestError", mr + 1, (List.range mr).map fun i => rd * 2 ^ i⟩) ∧
    (500 ≤ code →
      make_request mr rd (fun _ => .status code) 0 =
        ⟨.error ("HTTPStatusError " ++ toString code), mr + 1,
         (List.range mr).map fun i => rd * 2 ^ i⟩) ∧
    (make_request 3 2 (fun i => if i < 2 then AttemptOutcome.status 429 else .ok false) 0 =
      ⟨.ok (), 3, [2 * 2 ^ 0, 2 * 2 ^ 1]⟩) := by
  refine ⟨?_, ?_, ?_, ?_, make_request_429_429_ok⟩
  · intro hor h4 h5 hne
    exact make_request_other_4xx mr rd oracle rc code hor hne (by omega)
  · have h := make_request_all_429 rd mr 0
    rw [Nat.zero_add] at h
    rw [h, List.range_eq_range']
  · have h := make_request_all_transport rd mr 0
    rw [Nat.zero_add] at h
    rw [h, List.range_eq_range']
  · intro h5
    have h := make_request_all_5xx rd code h5 mr 0
    rw [Nat.zero_add] at h
    rw [h, List.range_eq_range']

/-- Witness for C7: a 404 fails on the first attempt with no wait even with
five retries available; a single-retry client exhausts on persistent 503
after two attempts and one wait. -/
theorem C7_client_retry_witness :
    make_request 5 2 (fun _ => AttemptOutcome.status 404) 0 =
      ⟨.error ("HTTPStatusError " ++ toString 404), 1, []⟩ ∧
    make_request 1 3 (fun _ => AttemptOutcome.status 503) 0 =
      ⟨.error ("HTTPStatusError " ++ toString 503), 1 + 1,
       (List.range 1).map fun i => (3 : Rat) * 2 ^ i⟩ := by
  constructor
  · exact (C7_client_retry 5 2 (fun _ => .status 404) 0 404).1 rfl (by omega) (by omega)
      (by omega)
  · exact (C7_client_retry 1 3 (fun _ => .status 503) 0 503).2.2.2.1 (by omega)

/-! ## Buy-box price resolution (`CSVGenerator.extract_keepa_product_data`)

`extract_keepa_product_data` (`csv_generator.py` lines 349-475) resolves the
buy-box price of a product row:
1. the first *truthy* (present, non-zero) of `stats.buyBoxPrice`,
   `stats.buyBoxPriceNew`, `stats.current`, converted from cents to dollars
   when positive (a non-positive value is discarded, `buy_box_price = None`);
2. when still `None`, the listed price of the seller whose `sellerId` equals
   `stats.buyBoxSellerId` (first match; block guarded by a truthy id and a
   non-empty seller list), when positive;
3. when *no buy-box seller name* was found so far, the name — and, when the
   price is still `None`, the price — of the first seller whose name
   contains "amazon" (case-insensitive) or which is FBA, then of the first
   listed seller.
The *lowest* positive listed price feeds only `current_amazon_price`
(lines 450-466), the separate "Current Amazon Price" column of the report —
never `buy_box_price`, which
`generate_comprehensive_report_csv` (lines 514-521) uses as the row's "Buy
Box Seller Price" and renders as "N/A" when `None`.  Prices are JSON numbers
in cents (`Rat` here); `float(...)/100.0` is exact division by 100. -/

/-- The stats fields consulted by the buy-box resolution. -/
structure KeepaStats where
  buyBoxPrice : Option Rat
  buyBoxPriceNew : Option Rat
  current : Option Rat
  buyBoxSellerId : Option String
deriving DecidableEq, Repr

/-- Python `x or y` on optional JSON numbers: `x` when truthy (present and
non-zero), else `y`. -/
def py_or (a b : Option Rat) : Option Rat :=
  match a with
  | some v => if v = 0 then b else some v
  | none => b

/-- The chain `stats.get("buyBoxPrice") or stats.get("buyBoxPriceNew") or
stats.get("current") or None` (lines 378-383). -/
def stats_price_chain (stats : KeepaStats) : Option Rat :=
  py_or stats.buyBoxPrice (py_or stats.buyBoxPriceNew stats.current)

/-- `"amazon" in seller_name.lower()`. -/
def contains_amazon (s : String) : Bool :=
  (s.toLower.splitOn "amazon").length ≥ 2

/-- The id-match loop (lines 401-415): first seller whose `sellerId` equals
the truthy `stats.buyBoxSellerId`; the block is skipped for a falsy id or an
empty seller list. -/
def find_buy_box_seller (stats : KeepaStats) (sellers : List KeepaSellerJson) :
    Option KeepaSellerJson :=
  match stats.buyBoxSellerId with
  | some id =>
    if id = "" ∨ sellers = [] then none
    else sellers.find? fun s => s.sellerId == some id
  | none => none

/-- The name-heuristic loop (lines 418-433): first seller whose name
contains "amazon" or which is FBA. -/
def find_amazon_or_fba (sellers : List KeepaSellerJson) : Option KeepaSellerJson :=
  sellers.find? fun s => contains_amazon (s.sellerName.getD "") || s.isFBA

/-- Lines 452-466: the lowest positive listed price, in dollars. -/
def lowest_positive_price (sellers : List KeepaSellerJson) : Option Rat :=
  (sellers.filterMap fun s =>
    match s.price with
    | some p => if 0 < p / 100 then some (p / 100) else none
    | none => none).min?

/-- A seller's positive listed price in dollars (`seller.get("price")`,
`float`, `> 0` check, `/100`), used by every seller-based price fill. -/
def seller_pos_price (s : KeepaSellerJson) : Option Rat :=
  match s.price with
  | some p => if 0 < p then some (p / 100) else none
  | none => none

/-- The buy-box fields of the dict returned by `extract_keepa_product_data`
(`asin`/`title`/`brand` are plain pass-throughs and are omitted). -/
structure ProductData where
  buy_box_price : Option Rat
  buy_box_seller_name : String
  current_amazon_price : Option Rat
deriving DecidableEq, Repr

/-- Embedding of `CSVGenerator.extract_keepa_product_data` (lines 349-475):
the sequential mutation of `buy_box_price` / `buy_box_seller_name` /
`current_amazon_price` as a chain of lets, one per source block. -/
def extract_keepa_product_data (stats : KeepaStats)
    (current_sellers : List KeepaSellerJson) : ProductData :=
  let bbp0 : Option Rat :=
    match stats_price_chain stats with
    | some v => if 0 < v then some (v / 100) else none
    | none => none
  let idMatch := find_buy_box_seller stats current_sellers
  let name1 : String :=
    match idMatch with
    | some s => s.sellerName.getD ""
    | none => ""
  let bbp1 : Option Rat :=
    match idMatch with
    | some s => if bbp0 = none then seller_pos_price s else bbp0
    | none => bbp0
  let heur := find_amazon_or_fba current_sellers
  let name2 : String :=
    if name1 = "" ∧ current_sellers ≠ [] then
      match heur with
      | some s => s.sellerName.getD ""
      | none => name1
    else name1
  let bbp2 : Option Rat :=
    if name1 = "" ∧ current_sellers ≠ [] then
      match heur with
      | some s => if bbp1 = none then seller_pos_price s else bbp1
      | none => bbp1
    else bbp1
  let name3 : String :=
    if name2 = "" ∧ current_sellers ≠ [] then
      match current_sellers.head? with
      | some s => s.sellerName.getD ""
      | none => name2
    else name2
  let bbp3 : Option Rat :=
    if name2 = "" ∧ current_sellers ≠ [] then
      match current_sellers.head? with
      | some s => if bbp2 = none then seller_pos_price s else bbp2
      | none => bbp2
    else bbp2
  let current_amazon_price : Option Rat :=
    match bbp3 with
    | some v => some v
    | none => if current_sellers ≠ [] then lowest_positive_price current_sellers else none
  ⟨bbp3, name3, current_amazon_price⟩

theorem find_buy_box_seller_nil (stats : KeepaStats) :
    find_buy_box_seller stats [] = none := by
  unfold find_buy_box_seller
  cases stats.buyBoxSellerId with
  | none => rfl
  | some id => simp

theorem extract_bbp_stats_pos (stats : KeepaStats) (sellers : List KeepaSellerJson) (v : Rat)
    (hchain : stats_price_chain stats = some v) (hv : 0 < v) :
    (extract_keepa_product_data stats sellers).buy_box_price = some (v / 100) := by
  simp only [extract_keepa_product_data, hchain, hv, if_true]
  rcases hf : find_buy_box_seller stats sellers with _ | s <;>
    simp only [hf] <;>
    rcases hh : find_amazon_or_fba sellers with _ | s2 <;>
      simp only [hh] <;>
      rcases hd : sellers.head? with _ | s3 <;>
        simp [hd]

theorem extract_bbp_id_match (stats : KeepaStats) (sellers : List KeepaSellerJson)
    (s : KeepaSellerJson) (p : Rat)
    (hchain : ∀ w, stats_price_chain stats = some w → w ≤ 0)
    (hfind : find_buy_box_seller stats sellers = some s)
    (hp : seller_pos_price s = some p) :
    (extract_keepa_product_data stats sellers).buy_box_price = some p := by
  have hbbp0 : (match stats_price_chain stats with
      | some v => if 0 < v then some (v / 100) else none
      | none => (none : Option Rat)) = none := by
    rcases hc : stats_price_chain stats with _ | w
    · rfl
    · simp [not_lt.mpr (hchain w hc)]
  simp only [extract_keepa_product_data, hbbp0, hfind, hp]
  rcases hh : find_amazon_or_fba sellers with _ | s2 <;>
    simp only [hh] <;>
    rcases hd : sellers.head? with _ | s3 <;>
      simp [hd]

theorem extract_bbp_id_match_no_price (stats : KeepaStats) (sellers : List KeepaSellerJson)
    (s : KeepaSellerJson)
    (hchain : ∀ w, stats_price_chain stats = some w → w ≤ 0)
    (hfind : find_buy_box_seller stats sellers = some s)
    (hp : seller_pos_price s = none)
    (hname : s.sellerName.getD "" ≠ "") :
    (extract_keepa_product_data stats sellers).buy_box_price = none ∧
    (extract_keepa_product_data stats sellers).current_amazon_price =
      lowest_positive_price sellers := by
  have hne : sellers ≠ [] := by
    intro h
    rw [h, find_buy_box_seller_nil] at hfind
    cases hfind
  have hbbp0 : (match stats_price_chain stats with
      | some v => if 0 < v then some (v / 100) else none
      | none => (none : Option Rat)) = none := by
    rcases hc : stats_price_chain stats with _ | w
    · rfl
    · simp [not_lt.mpr (hchain w hc)]
  constructor <;>
    simp [extract_keepa_product_data, hbbp0, hfind, hp, hname, hne]

theorem extract_bbp_heuristic (stats : KeepaStats) (sellers : List KeepaSellerJson)
    (s : KeepaSellerJson) (p : Rat)
    (hchain : ∀ w, stats_price_chain stats = some w → w ≤ 0)
    (hfind : find_buy_box_seller stats sellers = none)
    (hheur : find_amazon_or_fba sellers = some s)
    (hp : seller_pos_price s = some p) :
    (extract_keepa_product_data stats sellers).buy_box_price = some p := by
  have hne : sellers ≠ [] := by
    intro h
    rw [h] at hheur
    cases hheur
  have hbbp0 : (match stats_price_chain stats with
      | some v => if 0 < v then some (v / 100) else none
      | none => (none : Option Rat)) = none := by
    rcases hc : stats_price_chain stats with _ | w
    · rfl
    · simp [not_lt.mpr (hchain w hc)]
  simp only [extract_keepa_product_data, hbbp0, hfind, hheur, hp]
  rcases hd : sellers.head? with _ | s3 <;> simp [hd, hne]

/-- C9 (amended): the buy-box price of a row is resolved as: (1) the first
truthy aggregate stats field, converted to dollars when positive; (2)
otherwise the positive listed price of the seller matched by the buy-box
seller id; (3) when no seller was matched by id, the positive listed price
of the name-heuristic seller (first "amazon"-named or FBA seller).  The
lowest listed seller price is *not* a fallback for the buy-box price: when
the id-matched seller has no positive price (and a non-empty name), the
buy-box price stays `None` (rendered "N/A") even though other sellers list
positive prices — the lowest positive listed price feeds only the separate
`current_amazon_price` field. -/
theorem C9_buy_box_resolution_amended (stats : KeepaStats) (sellers : List KeepaSellerJson)
    (s : KeepaSellerJson) (v p : Rat) :
    (stats_price_chain stats = some v → 0 < v →
      (extract_keepa_product_data stats sellers).buy_box_price = some (v / 100)) ∧
    ((∀ w, stats_price_chain stats = some w → w ≤ 0) →
      find_buy_box_seller stats sellers = some s → seller_pos_price s = some p →
      (extract_keepa_product_data stats sellers).buy_box_price = some p) ∧
    ((∀ w, stats_price_chain stats = some w → w ≤ 0) →
      find_buy_box_seller stats sellers = none → find_amazon_or_fba sellers = some s →
      seller_pos_price s = some p →
      (extract_keepa_product_data stats sellers).buy_box_price = some p) ∧
    ((∀ w, stats_price_chain stats = some w → w ≤ 0) →
      find_buy_box_seller stats sellers = some s → seller_pos_price s = none →
      s.sellerName.getD "" ≠ "" →
      (extract_keepa_product_data stats sellers).buy_box_price = none ∧
      (extract_keepa_product_data stats sellers).current_amazon_price =
        lowest_positive_price sellers) :=
  ⟨fun h1 h2 => extract_bbp_stats_pos stats sellers v h1 h2,
   fun h1 h2 h3 => extract_bbp_id_match stats sellers s p h1 h2 h3,
   fun h1 h2 h3 h4 => extract_bbp_heuristic stats sellers s p h1 h2 h3 h4,
   fun h1 h2 h3 h4 => extract_bbp_id_match_no_price stats sellers s h1 h2 h3 h4⟩

/-- Witness for C9 (amended): a positive stats price of 1234 cents resolves
to a buy-box price of `1234 / 100` dollars, independent of the seller list. -/
theorem C9_buy_box_resolution_amended_witness :
    (extract_keepa_product_data ⟨some 1234, none, none, none⟩ []).buy_box_price =
      some (1234 / 100) :=
  (C9_buy_box_resolution_amended ⟨some 1234, none, none, none⟩ []
      ⟨none, none, none, false, none⟩ 1234 0).1
    (by norm_num [stats_price_chain, py_or]) (by norm_num)

/-- Counterexample to C9 as stated: empty aggregate stats, the buy-box
seller id matches the first seller "Alice" (no listed price), and "Bob"
lists 500 cents.  The claim's third source — the lowest listed seller price,
`5` dollars — would make the buy-box price `5`; the code leaves
`buy_box_price = None` ("N/A") and routes the lowest listed price only into
the separate `current_amazon_price` field. -/
theorem C9_buy_box_counterexample :
    (extract_keepa_product_data ⟨none, none, none, some "S1"⟩
      [⟨some "S1", some "Alice", none, false, none⟩,
       ⟨some "S2", some "Bob", some 500, false, none⟩]).buy_box_price = none ∧
    (extract_keepa_product_data ⟨none, none, none, some "S1"⟩
      [⟨some "S1", some "Alice", none, false, none⟩,
       ⟨some "S2", some "Bob", some 500, false, none⟩]).current_amazon_price = some 5 ∧
    lowest_positive_price
      [⟨some "S1", some "Alice", none, false, none⟩,
       ⟨some "S2", some "Bob", some 500, false, none⟩] = some 5 := by
  have hlow : lowest_positive_price
      [⟨some "S1", some "Alice", none, false, none⟩,
       ⟨some "S2", some "Bob", some 500, false, none⟩] = some 5 := by
    norm_num [lowest_positive_price, List.filterMap_cons, List.min?]
  have h := extract_bbp_id_match_no_price ⟨none, none, none, some "S1"⟩
    [⟨some "S1", some "Alice", none, false, none⟩,
     ⟨some "S2", some "Bob", some 500, false, none⟩]
    ⟨some "S1", some "Alice", none, false, none⟩
    (by intro w hw; simp [stats_price_chain, py_or] at hw)
    (by decide) rfl (by decide)
  exact ⟨h.1, h.2.trans hlow, hlow⟩
